import Mathlib

/-!
# Verification of the due-balance recalculation subsystem of `server.js`

A shallow embedding of the daily-sales store, the `recalculateFutureDues`
cascade (server.js lines 615-659) and the read endpoint
`GET /api/daily-sale/:date` (server.js lines 662-737) of the mahi-bakery
server, together with proofs and refutations of the specification's claims
about them.

JavaScript numbers are modelled as exact rationals (`ℚ`); `toFixed(2)`
followed by `Number(...)` is modelled as rounding to the nearest multiple of
1/100 with ties towards +∞, which is the behaviour of `toFixed` on exact
decimal values.  Field values that may be absent or non-numeric are modelled
by the type `JVal` below.  MongoDB compares the ISO date strings occurring
here lexicographically by code point, modelled by `listLt` on the strings'
character lists.
-/

/-- A JavaScript field value as it occurs in a stored record: a number, a
string, `null`, or absent (`undefined`). -/
inductive JVal where
  | num (q : ℚ)
  | str (s : String)
  | null
  | undef
  deriving Repr, DecidableEq

/-- Lexicographic strict comparison of character lists by code point (the
order MongoDB uses on the ASCII date strings stored here). -/
def listLt : List Char → List Char → Bool
  | [], [] => false
  | [], _ :: _ => true
  | _ :: _, [] => false
  | a :: as, b :: bs =>
    if a.toNat < b.toNat then true
    else if b.toNat < a.toNat then false
    else listLt as bs

/-- `a < b` on date strings. -/
def dateLt (a b : String) : Bool := listLt a.data b.data

/-- `a ≤ b` on date strings (total order: not `b < a`). -/
def dateLe (a b : String) : Bool := !listLt b.data a.data

/-- Leading/trailing-whitespace trim on a character list (JS string trim,
as applied by `Number(...)` to string arguments). -/
def trimChars (cs : List Char) : List Char :=
  ((cs.dropWhile Char.isWhitespace).reverse.dropWhile Char.isWhitespace).reverse

/-- All-digit run to a natural number; `none` on an empty run or a
non-digit. -/
def parseDigits : List Char → Option Nat
  | [] => none
  | cs =>
    if cs.all Char.isDigit then
      some (cs.foldl (fun a c => a * 10 + (c.toNat - 48)) 0)
    else none

/-- Parse an unsigned decimal literal (`"12"`, `"12.5"`, `".5"`, `"12."`). -/
def parseUnsigned (cs : List Char) : Option ℚ :=
  match cs.splitOn '.' with
  | [whole] => (parseDigits whole).map (fun n => (n : ℚ))
  | [whole, frac] =>
    match whole, frac with
    | [], [] => none
    | [], f => (parseDigits f).map (fun n => (n : ℚ) / (10 : ℚ) ^ f.length)
    | w, [] => (parseDigits w).map (fun n => (n : ℚ))
    | w, f =>
      match parseDigits w, parseDigits f with
      | some a, some b => some ((a : ℚ) + (b : ℚ) / (10 : ℚ) ^ f.length)
      | _, _ => none
  | _ => none

/-- JS `Number(s)` for a string `s`: trim, blank is `0`, otherwise a signed
decimal literal; `none` stands for NaN.  (Hex, exponent and `Infinity`
literals never occur in this data and are not modelled.) -/
def parseNumber (s : String) : Option ℚ :=
  match trimChars s.data with
  | [] => some 0
  | '-' :: rest => (parseUnsigned rest).map (fun q => -q)
  | '+' :: rest => parseUnsigned rest
  | cs => parseUnsigned cs

/-- JS `Number(v)`; `none` stands for NaN.  `Number(null) = 0`,
`Number(undefined) = NaN`. -/
def jsToNumber : JVal → Option ℚ
  | .num q => some q
  | .str s => parseNumber s
  | .null => some 0
  | .undef => none

/-- JS `Number(v) || 0`: the falsy numbers are NaN and 0, and both are
replaced by 0, so the result is the coerced number with NaN sent to 0. -/
def numOr0 (v : JVal) : ℚ := (jsToNumber v).getD 0

/-- JS nullish coalescing `a ?? b`: `b` exactly when `a` is `null` or
`undefined`. -/
def coalesce (a b : JVal) : JVal :=
  match a with
  | .null => b
  | .undef => b
  | v => v

/-- `Number(x.toFixed(2))` on an exact decimal value: round to the nearest
multiple of 1/100, ties towards the larger value (ECMA-262 `toFixed`). -/
def round2 (q : ℚ) : ℚ := (⌊q * 100 + 1 / 2⌋ : ℚ) / 100

/-- One sale line of a record's `categories` array: `{name, total}`. -/
structure Category where
  name : String
  total : JVal
  deriving Repr, DecidableEq

/-- A stored document of the `dailySales` collection, with the fields the
recalculation subsystem reads or writes.  `rid` models the Mongo `_id`
(unique per document); `categories = none` models a stored value that is not
an array (the code guards with `Array.isArray`).  The legacy fields
`currentDue` and `due` are kept because the seed lookup reads them.  Other
fields of the JSON documents (e.g. `selectedCategories`) are never read or
written by this subsystem and are omitted. -/
structure SaleRecord where
  rid : Nat
  salesmanId : String
  date : String
  categories : Option (List Category)
  deposit : JVal
  prevDue : JVal
  totalAmount : JVal
  totalDue : JVal
  currDue : JVal
  currentDue : JVal
  due : JVal
  deriving Repr, DecidableEq

/-- The store is the `dailySales` collection in its natural order. -/
abbrev Store := List SaleRecord

/-- `categories.reduce((sum, c) => sum + (Number(c.total) || 0), 0)`. -/
def sumTotals (cs : List Category) : ℚ :=
  cs.foldl (fun s c => s + numOr0 c.total) 0

/-- The four due fields, with the exact values the cascade writes. -/
structure DueFields where
  prevDue : ℚ
  totalAmount : ℚ
  totalDue : ℚ
  currDue : ℚ
  deriving Repr, DecidableEq

/-- One iteration of the cascade loop body (server.js lines 637-657):
from the carried `prevDue` and the fetched record, the `$set` payload and
the value carried to the next iteration.  The stored `totalAmount`,
`totalDue`, `currDue` are rounded (`Number(x.toFixed(2))`); the stored
`prevDue` is the raw coerced carry, and the carried value is the UNROUNDED
`currDue`. -/
def computeStep (prevDue : JVal) (sale : SaleRecord) : DueFields × JVal :=
  let categories := sale.categories.getD []
  let totalAmount := sumTotals categories
  let deposit := numOr0 sale.deposit
  let newPrevDue := numOr0 prevDue
  let totalDue := totalAmount + newPrevDue
  let currDue := totalDue - deposit
  ({ prevDue := newPrevDue
     totalAmount := round2 totalAmount
     totalDue := round2 totalDue
     currDue := round2 currDue }, .num currDue)

/-- Apply a `$set` of the four due fields to a stored record. -/
def setDue (d : DueFields) (r : SaleRecord) : SaleRecord :=
  { r with prevDue := .num d.prevDue, totalAmount := .num d.totalAmount,
           totalDue := .num d.totalDue, currDue := .num d.currDue }

/-- `updateOne(filter, ...)`: update the first record satisfying `p`. -/
def updateFirst (p : SaleRecord → Bool) (f : SaleRecord → SaleRecord) :
    Store → Store
  | [] => []
  | r :: rs => if p r then f r :: rs else r :: updateFirst p f rs

/-- The cascade loop: walk the fetched snapshot carrying `prevDue`, writing
each step's due fields onto the store by `_id`. -/
def cascadeLoop : Store → JVal → List SaleRecord → Store
  | store, _, [] => store
  | store, pd, sale :: rest =>
    let s := computeStep pd sale
    cascadeLoop (updateFirst (fun r => r.rid == sale.rid) (setDue s.1) store)
      s.2 rest

/-- Insert a record into a date-ascending list, after all records with an
earlier-or-equal date (stable insertion). -/
def insertByDate (r : SaleRecord) : List SaleRecord → List SaleRecord
  | [] => [r]
  | x :: xs =>
    if dateLe x.date r.date then x :: insertByDate r xs else r :: x :: xs

/-- `.find(query).sort({date: 1})`: stable sort by `date` ascending. -/
def sortByDate : List SaleRecord → List SaleRecord
  | [] => []
  | r :: rs => insertByDate r (sortByDate rs)

/-- `findOne({salesmanId, date})`: first match in natural order. -/
def findRec (store : Store) (salesmanId date : String) : Option SaleRecord :=
  store.find? (fun r => r.salesmanId == salesmanId && r.date == date)

/-- `.find({salesmanId, date: {$lt: d}}).sort({date: -1}).limit(1)`:
a record with the maximal date strictly before `d`. -/
def lastBefore (store : Store) (salesmanId d : String) : Option SaleRecord :=
  (sortByDate (store.filter
    (fun r => r.salesmanId == salesmanId && dateLt r.date d))).getLast?

/-- The seed determination of `recalculateFutureDues` (lines 622-635): the
anchor-date record's `currDue ?? currentDue ?? due ?? 0` if that record
exists, otherwise the nearest earlier record's `currDue ?? 0`, otherwise
`0`.  Note the earlier-record branch reads only `currDue`. -/
def seedPrevDue (store : Store) (salesmanId fromDate : String) : JVal :=
  match findRec store salesmanId fromDate with
  | some lastDay =>
    coalesce lastDay.currDue (coalesce lastDay.currentDue
      (coalesce lastDay.due (.num 0)))
  | none =>
    match lastBefore store salesmanId fromDate with
    | some last => coalesce last.currDue (.num 0)
    | none => .num 0

/-- The snapshot `futureSales`: the salesman's records strictly after the
anchor date, sorted by date ascending (lines 617-620). -/
def futureSales (store : Store) (salesmanId fromDate : String) :
    List SaleRecord :=
  sortByDate (store.filter
    (fun r => r.salesmanId == salesmanId && dateLt fromDate r.date))

/-- `recalculateFutureDues(salesmanId, fromDate)` (server.js lines
615-659): fetch the snapshot of strictly-later records sorted by date,
determine the seed, then run the cascade loop over the snapshot. -/
def recalculateFutureDues (store : Store) (salesmanId fromDate : String) :
    Store :=
  cascadeLoop store (seedPrevDue store salesmanId fromDate)
    (futureSales store salesmanId fromDate)

/-! ## Read endpoint `GET /api/daily-sale/:date` (server.js lines 662-737) -/

/-- Building a JS object map by `forEach` assignment keyed on `salesmanId`
and reading one key: the LAST matching record wins. -/
def findLastRec (p : SaleRecord → Bool) (l : Store) : Option SaleRecord :=
  (l.filter p).getLast?

/-- Leap year (Gregorian rule used by JS `Date`). -/
def isLeap (y : Nat) : Bool := (y % 4 == 0 && y % 100 != 0) || y % 400 == 0

/-- Days in month `m` of year `y`. -/
def daysInMonth (y m : Nat) : Nat :=
  if m == 2 then (if isLeap y then 29 else 28)
  else if m == 4 || m == 6 || m == 9 || m == 11 then 30
  else 31

/-- Decimal digit value of an ASCII digit character. -/
def digitVal (c : Char) : Nat := c.toNat - 48

/-- Two-digit zero-padded rendering. -/
def pad2 (n : Nat) : List Char :=
  [Char.ofNat (48 + n / 10 % 10), Char.ofNat (48 + n % 10)]

/-- Four-digit zero-padded rendering. -/
def pad4 (n : Nat) : List Char :=
  [Char.ofNat (48 + n / 1000 % 10), Char.ofNat (48 + n / 100 % 10),
   Char.ofNat (48 + n / 10 % 10), Char.ofNat (48 + n % 10)]

/-- The calendar day before an ISO `YYYY-MM-DD` date, as computed by
`new Date(date); d.setDate(d.getDate() - 1); d.toISOString().slice(0, 10)`
(UTC arithmetic, so exactly the Gregorian predecessor on canonical input).
A non-canonical string yields an invalid `Date` in the source (the endpoint
then has no previous-day records); modelled as the never-matching `""`. -/
def prevDateOf (date : String) : String :=
  match date.data with
  | [y1, y2, y3, y4, '-', m1, m2, '-', d1, d2] =>
    let y := ((digitVal y1 * 10 + digitVal y2) * 10 + digitVal y3) * 10 + digitVal y4
    let m := digitVal m1 * 10 + digitVal m2
    let d := digitVal d1 * 10 + digitVal d2
    let ymd : Nat × Nat × Nat :=
      if 1 < d then (y, m, d - 1)
      else if 1 < m then (y, m - 1, daysInMonth y (m - 1))
      else (y - 1, 12, 31)
    String.mk (pad4 ymd.1 ++ '-' :: pad2 ymd.2.1 ++ '-' :: pad2 ymd.2.2)
  | _ => ""

/-- `prevDueMap[salesmanId]` (lines 681-685): the previous-day record's
`currDue ?? currentDue ?? due ?? 0`, or `none` when that salesman has no
record on the previous day. -/
def prevDueLookup (store : Store) (prevDate smId : String) : Option JVal :=
  (findLastRec (fun r => r.date == prevDate && r.salesmanId == smId) store).map
    (fun r => coalesce r.currDue (coalesce r.currentDue (coalesce r.due (.num 0))))

/-- `getLastKnownDue` (lines 688-695): `last[0]?.currDue ?? 0`. -/
def getLastKnownDue (store : Store) (smId date : String) : JVal :=
  match lastBefore store smId date with
  | some r => coalesce r.currDue (.num 0)
  | none => .num 0

/-- The read-side repair trigger (lines 703-708): stored `prevDue` is
`undefined`, `null`, `""`, or `Number(prevDue) === 0`. -/
def needsRepair (v : JVal) : Bool :=
  v == .undef || v == .null || v == .str "" || jsToNumber v == some 0

/-- The entry the read endpoint produces for one salesman (lines 699-731).
With a record on the requested date: the record, its `prevDue` replaced by
`prevDueMap[sm] ?? 0` when the repair triggers.  Without one: a synthesized
record carrying `prevDueMap[sm] ?? getLastKnownDue(sm)` in all three due
fields.  (`prevDueLookup` values are never null-ish, so `?? ` is `getD`.) -/
def entryFor (store : Store) (date smId : String) : SaleRecord :=
  match findLastRec (fun r => r.date == date && r.salesmanId == smId) store with
  | some today =>
    if needsRepair today.prevDue then
      { today with
          prevDue := (prevDueLookup store (prevDateOf date) smId).getD (.num 0) }
    else today
  | none =>
    let fallbackDue :=
      (prevDueLookup store (prevDateOf date) smId).getD
        (getLastKnownDue store smId date)
    { rid := 0, salesmanId := smId, date := date, categories := some [],
      deposit := .num 0, prevDue := fallbackDue, totalAmount := .num 0,
      totalDue := fallbackDue, currDue := fallbackDue,
      currentDue := .undef, due := .undef }

/-- The endpoint's response: one entry per known salesman, in order. -/
def readDailySale (salesmenIds : List String) (store : Store) (date : String) :
    Store :=
  salesmenIds.map (entryFor store date)

/-! ## Proof infrastructure -/

/-- The record with a given `_id`, read back from a store. -/
def lookupRid (store : Store) (i : Nat) : Option SaleRecord :=
  store.find? (fun r => r.rid == i)

/-- The `$set` payloads of a cascade walk, keyed by the `_id` of the record
each one is written to: a pure recharacterization of the loop's writes. -/
def walkAssign : JVal → List SaleRecord → List (Nat × DueFields)
  | _, [] => []
  | pd, sale :: rest =>
    (sale.rid, (computeStep pd sale).1) ::
      walkAssign (computeStep pd sale).2 rest

/-- Apply a keyed collection of `$set` payloads to one record. -/
def applyAssign (A : List (Nat × DueFields)) (r : SaleRecord) : SaleRecord :=
  match A.find? (fun p => p.1 == r.rid) with
  | some p => setDue p.2 r
  | none => r

/-! ### Concrete stores used in witnesses and counterexamples -/

/-- A record with empty sales and no due fields, the base for examples. -/
def blankRec : SaleRecord :=
  { rid := 0, salesmanId := "", date := "", categories := some [],
    deposit := .num 0, prevDue := .undef, totalAmount := .undef,
    totalDue := .undef, currDue := .undef, currentDue := .undef, due := .undef }

/-- The rational 1/8 = 0.125 in already-reduced form (a value on which the
chain's rounding behaviour is visible: `round2 (1/8) = 0.13 ≠ 1/8`). -/
def oneEighth : ℚ := ⟨1, 8, by norm_num, Nat.coprime_one_left 8⟩

/-- Anchor-date record: salesman `"s"`, 2024-01-01, stored `currDue = 0`. -/
def exA : SaleRecord :=
  { blankRec with
    rid := 1
    salesmanId := "s"
    date := "2024-01-01"
    currDue := JVal.num 0 }

/-- 2024-01-02 record with a single sale line of 0.125. -/
def exB : SaleRecord :=
  { blankRec with
    rid := 2
    salesmanId := "s"
    date := "2024-01-02"
    categories := some [Category.mk "bread" (JVal.num oneEighth)] }

/-- 2024-01-03 record with no sale lines. -/
def exC : SaleRecord :=
  { blankRec with
    rid := 3
    salesmanId := "s"
    date := "2024-01-03" }

/-- Three consecutive stored records D1 < D2 < D3 of one salesman. -/
def exStore : Store := [exA, exB, exC]

/-- The record a cascade step is applied to in the spec's arithmetic
example: `categories = [{total: 120.555}, {total: 30}]`, `deposit = 50`. -/
def exArith : SaleRecord :=
  { blankRec with
    categories := some [Category.mk "a" (JVal.num 120.555),
                        Category.mk "b" (JVal.num 30)]
    deposit := JVal.num 50 }

/-- A record whose only due information is in the legacy `currentDue`. -/
def exLegacy : SaleRecord :=
  { blankRec with
    rid := 1
    salesmanId := "s"
    date := "2024-01-01"
    currentDue := JVal.num 75 }

/-- A 2024-01-03 record of `"s"`, two days after `exLegacy`. -/
def exAfterGap : SaleRecord :=
  { blankRec with
    rid := 2
    salesmanId := "s"
    date := "2024-01-03" }

/-- Store for the seed-fallback counterexample: only a legacy-field record
before the anchor and one record after it. -/
def exStoreLegacy : Store := [exLegacy, exAfterGap]

/-- An old record of `"s"` far before the read date, `currDue = 42`. -/
def exOld : SaleRecord :=
  { blankRec with
    rid := 1
    salesmanId := "s"
    date := "2024-01-01"
    currDue := JVal.num 42 }

/-- A record of `"s"` on the read date 2024-01-05, stored `prevDue = 0`. -/
def exToday : SaleRecord :=
  { blankRec with
    rid := 2
    salesmanId := "s"
    date := "2024-01-05"
    prevDue := JVal.num 0
    currDue := JVal.num 0 }

/-- Store for the read-side repair counterexample: the nearest earlier
record is four calendar days before the read date. -/
def exStoreRead : Store := [exOld, exToday]

@[simp] theorem setDue_rid (d : DueFields) (r : SaleRecord) :
    (setDue d r).rid = r.rid := rfl

@[simp] theorem setDue_salesmanId (d : DueFields) (r : SaleRecord) :
    (setDue d r).salesmanId = r.salesmanId := rfl

@[simp] theorem setDue_date (d : DueFields) (r : SaleRecord) :
    (setDue d r).date = r.date := rfl

@[simp] theorem setDue_categories (d : DueFields) (r : SaleRecord) :
    (setDue d r).categories = r.categories := rfl

@[simp] theorem setDue_deposit (d : DueFields) (r : SaleRecord) :
    (setDue d r).deposit = r.deposit := rfl

@[simp] theorem setDue_currentDue (d : DueFields) (r : SaleRecord) :
    (setDue d r).currentDue = r.currentDue := rfl

@[simp] theorem setDue_due (d : DueFields) (r : SaleRecord) :
    (setDue d r).due = r.due := rfl

theorem setDue_setDue (d : DueFields) (r : SaleRecord) :
    setDue d (setDue d r) = setDue d r := rfl

theorem oneEighth_eq : oneEighth = 0.125 := by
  unfold oneEighth
  rw [Rat.mk'_eq_divInt, Rat.divInt_eq_div]
  norm_num

@[simp] theorem applyAssign_rid (A : List (Nat × DueFields)) (r : SaleRecord) :
    (applyAssign A r).rid = r.rid := by
  unfold applyAssign; split <;> simp

@[simp] theorem applyAssign_salesmanId (A : List (Nat × DueFields))
    (r : SaleRecord) : (applyAssign A r).salesmanId = r.salesmanId := by
  unfold applyAssign; split <;> simp

@[simp] theorem applyAssign_date (A : List (Nat × DueFields)) (r : SaleRecord) :
    (applyAssign A r).date = r.date := by
  unfold applyAssign; split <;> simp

@[simp] theorem applyAssign_categories (A : List (Nat × DueFields))
    (r : SaleRecord) : (applyAssign A r).categories = r.categories := by
  unfold applyAssign; split <;> simp

@[simp] theorem applyAssign_deposit (A : List (Nat × DueFields))
    (r : SaleRecord) : (applyAssign A r).deposit = r.deposit := by
  unfold applyAssign; split <;> simp

theorem applyAssign_of_not_mem {A : List (Nat × DueFields)} {r : SaleRecord}
    (h : r.rid ∉ A.map Prod.fst) : applyAssign A r = r := by
  unfold applyAssign
  have : A.find? (fun p => p.1 == r.rid) = none := by
    rw [List.find?_eq_none]
    intro p hp hbeq
    exact h (List.mem_map.mpr ⟨p, hp, beq_iff_eq.mp hbeq⟩)
  rw [this]

theorem applyAssign_cons_ne {i : Nat} {d : DueFields}
    {A : List (Nat × DueFields)} {r : SaleRecord} (h : r.rid ≠ i) :
    applyAssign ((i, d) :: A) r = applyAssign A r := by
  unfold applyAssign
  rw [List.find?_cons]
  have : ((i, d).1 == r.rid) = false := by
    simp only [beq_eq_false_iff_ne]; exact fun hc => h hc.symm
  rw [this]

theorem applyAssign_cons_self {i : Nat} {d : DueFields}
    {A : List (Nat × DueFields)} {r : SaleRecord} (h : r.rid = i) :
    applyAssign ((i, d) :: A) r = setDue d r := by
  unfold applyAssign
  rw [List.find?_cons]
  have : ((i, d).1 == r.rid) = true := by simp [h]
  rw [this]

theorem walkAssign_fst (pd : JVal) (fs : List SaleRecord) :
    (walkAssign pd fs).map Prod.fst = fs.map SaleRecord.rid := by
  induction fs generalizing pd with
  | nil => rfl
  | cons f rest ih => simp [walkAssign, ih]

theorem updateFirst_length (p : SaleRecord → Bool) (f : SaleRecord → SaleRecord) :
    ∀ store : Store, (updateFirst p f store).length = store.length := by
  intro store
  induction store with
  | nil => rfl
  | cons r rs ih =>
    unfold updateFirst; split
    · rfl
    · simpa using ih

theorem cascadeLoop_length (fs : List SaleRecord) :
    ∀ (pd : JVal) (store : Store),
      (cascadeLoop store pd fs).length = store.length := by
  induction fs with
  | nil => intro pd store; rfl
  | cons f rest ih =>
    intro pd store
    unfold cascadeLoop
    rw [ih, updateFirst_length]

theorem recalculateFutureDues_length (store : Store) (sid D : String) :
    (recalculateFutureDues store sid D).length = store.length := by
  unfold recalculateFutureDues
  exact cascadeLoop_length _ _ _

theorem updateFirst_map_eq {α : Type} (g : SaleRecord → α)
    (p : SaleRecord → Bool) (f : SaleRecord → SaleRecord)
    (hf : ∀ r, g (f r) = g r) :
    ∀ store : Store, (updateFirst p f store).map g = store.map g := by
  intro store
  induction store with
  | nil => rfl
  | cons r rs ih =>
    unfold updateFirst; split
    · simp [hf]
    · simpa using ih

theorem cascadeLoop_map_eq {α : Type} (g : SaleRecord → α)
    (hg : ∀ d r, g (setDue d r) = g r) (fs : List SaleRecord) :
    ∀ (pd : JVal) (store : Store),
      (cascadeLoop store pd fs).map g = store.map g := by
  induction fs with
  | nil => intro pd store; rfl
  | cons f rest ih =>
    intro pd store
    unfold cascadeLoop
    rw [ih, updateFirst_map_eq g _ _ (fun r => hg _ r)]

theorem updateFirst_map_applyAssign (i : Nat) (d : DueFields)
    (A : List (Nat × DueFields)) (hA : i ∉ A.map Prod.fst) :
    ∀ store : Store, (store.map SaleRecord.rid).Nodup →
      (updateFirst (fun r => r.rid == i) (setDue d) store).map (applyAssign A) =
        store.map (applyAssign ((i, d) :: A)) := by
  intro store
  induction store with
  | nil => intro _; rfl
  | cons r rs ih =>
    intro h
    have hnd : r.rid ∉ rs.map SaleRecord.rid ∧ (rs.map SaleRecord.rid).Nodup :=
      List.nodup_cons.mp h
    by_cases hr : r.rid = i
    · have hb : (r.rid == i) = true := by simp [hr]
      unfold updateFirst
      rw [hb]
      simp only [if_true, List.map_cons]
      have h1 : applyAssign A (setDue d r) = setDue d r :=
        applyAssign_of_not_mem (by simpa [hr] using hA)
      have h2 : applyAssign ((i, d) :: A) r = setDue d r :=
        applyAssign_cons_self hr
      rw [h1, h2]
      have h3 : ∀ x ∈ rs, applyAssign A x = applyAssign ((i, d) :: A) x := by
        intro x hx
        have : x.rid ≠ i := fun hc => hnd.1 (hr ▸ hc ▸ List.mem_map_of_mem _ hx)
        exact (applyAssign_cons_ne this).symm
      rw [List.map_congr_left h3]
    · have hb : (r.rid == i) = false := by simp [hr]
      unfold updateFirst
      rw [hb]
      simp only [Bool.false_eq_true, if_false, List.map_cons]
      rw [applyAssign_cons_ne hr, ih hnd.2]

theorem cascadeLoop_eq_map (fs : List SaleRecord) :
    ∀ (pd : JVal) (store : Store),
      (store.map SaleRecord.rid).Nodup → (fs.map SaleRecord.rid).Nodup →
      cascadeLoop store pd fs = store.map (applyAssign (walkAssign pd fs)) := by
  induction fs with
  | nil =>
    intro pd store _ _
    show store = store.map (applyAssign [])
    have h0 : store.map (applyAssign []) = store := by
      have : ∀ x ∈ store, applyAssign [] x = x := fun x _ =>
        applyAssign_of_not_mem (by simp)
      rw [List.map_congr_left this, List.map_id']
    exact h0.symm
  | cons f rest ih =>
    intro pd store hs hf
    have hfr : f.rid ∉ rest.map SaleRecord.rid ∧
        (rest.map SaleRecord.rid).Nodup := List.nodup_cons.mp hf
    show cascadeLoop (updateFirst (fun r => r.rid == f.rid)
        (setDue (computeStep pd f).1) store) (computeStep pd f).2 rest =
      store.map (applyAssign (walkAssign pd (f :: rest)))
    rw [ih (computeStep pd f).2
      (updateFirst (fun r => r.rid == f.rid) (setDue (computeStep pd f).1) store)
      (by rw [updateFirst_map_eq _ _ _ (fun r => setDue_rid _ r)]; exact hs) hfr.2]
    show _ = store.map (applyAssign ((f.rid, (computeStep pd f).1) ::
      walkAssign (computeStep pd f).2 rest))
    exact updateFirst_map_applyAssign f.rid _ _
      (by rw [walkAssign_fst]; exact hfr.1) store hs

/-! ### The sort is a permutation, and order facts on `listLt`. -/

theorem insertByDate_perm (r : SaleRecord) :
    ∀ l : List SaleRecord, (insertByDate r l).Perm (r :: l) := by
  intro l
  induction l with
  | nil => exact List.Perm.refl _
  | cons x xs ih =>
    unfold insertByDate; split
    · exact (ih.cons x).trans (List.Perm.swap r x xs)
    · exact List.Perm.refl _

theorem sortByDate_perm : ∀ l : List SaleRecord, (sortByDate l).Perm l := by
  intro l
  induction l with
  | nil => exact List.Perm.refl _
  | cons x xs ih =>
    unfold sortByDate
    exact (insertByDate_perm x (sortByDate xs)).trans (ih.cons x)

theorem mem_futureSales {store : Store} {sid D : String} {r : SaleRecord} :
    r ∈ futureSales store sid D ↔
      r ∈ store ∧ (r.salesmanId == sid && dateLt D r.date) = true := by
  unfold futureSales
  rw [(sortByDate_perm _).mem_iff, List.mem_filter]

theorem futureSales_nodup {store : Store} (sid D : String)
    (h : (store.map SaleRecord.rid).Nodup) :
    ((futureSales store sid D).map SaleRecord.rid).Nodup := by
  unfold futureSales
  rw [((sortByDate_perm _).map SaleRecord.rid).nodup_iff]
  exact ((List.filter_sublist store).map SaleRecord.rid).nodup h

theorem recalc_eq_map {store : Store} {sid D : String}
    (h : (store.map SaleRecord.rid).Nodup) :
    recalculateFutureDues store sid D =
      store.map (applyAssign
        (walkAssign (seedPrevDue store sid D) (futureSales store sid D))) := by
  unfold recalculateFutureDues
  exact cascadeLoop_eq_map _ _ _ h (futureSales_nodup sid D h)

theorem listLt_irrefl : ∀ l : List Char, listLt l l = false := by
  intro l
  induction l with
  | nil => rfl
  | cons a as ih => simp [listLt, ih]

theorem listLt_asymm : ∀ {a b : List Char},
    listLt a b = true → listLt b a = false := by
  intro a
  induction a with
  | nil =>
    intro b h
    cases b with
    | nil => simp [listLt] at h
    | cons x xs => rfl
  | cons x xs ih =>
    intro b h
    cases b with
    | nil => simp [listLt] at h
    | cons y ys =>
      unfold listLt at h ⊢
      by_cases h1 : x.toNat < y.toNat
      · rw [if_neg (Nat.lt_asymm h1), if_pos h1]
      · by_cases h2 : y.toNat < x.toNat
        · rw [if_neg h1, if_pos h2] at h
          exact absurd h (by simp)
        · rw [if_neg h1, if_neg h2] at h
          rw [if_neg h2, if_neg h1]
          exact ih h

theorem dateLt_irrefl (d : String) : dateLt d d = false := by
  unfold dateLt; exact listLt_irrefl _

theorem dateLt_asymm {a b : String} (h : dateLt a b = true) :
    dateLt b a = false := by
  unfold dateLt at h ⊢; exact listLt_asymm h

/-! ### Shape of cascade-written records -/

theorem mem_updateFirst {p : SaleRecord → Bool} {f : SaleRecord → SaleRecord}
    {r : SaleRecord} :
    ∀ {store : Store}, r ∈ updateFirst p f store →
      r ∈ store ∨ ∃ x ∈ store, r = f x := by
  intro store
  induction store with
  | nil => intro h; exact absurd h (by simp [updateFirst])
  | cons y ys ih =>
    intro h
    unfold updateFirst at h
    by_cases hy : p y
    · rw [if_pos hy] at h
      rcases List.mem_cons.mp h with h1 | h1
      · exact Or.inr ⟨y, List.mem_cons_self y ys, h1⟩
      · exact Or.inl (List.mem_cons_of_mem y h1)
    · rw [if_neg hy] at h
      rcases List.mem_cons.mp h with h1 | h1
      · exact Or.inl (h1 ▸ List.mem_cons_self y ys)
      · rcases ih h1 with h2 | ⟨x, hx, hfx⟩
        · exact Or.inl (List.mem_cons_of_mem y h2)
        · exact Or.inr ⟨x, List.mem_cons_of_mem y hx, hfx⟩

theorem mem_cascadeLoop {r : SaleRecord} :
    ∀ (fs : List SaleRecord) (pd : JVal) (store : Store),
      r ∈ cascadeLoop store pd fs →
      r ∈ store ∨ ∃ pd2 sale x, r = setDue (computeStep pd2 sale).1 x := by
  intro fs
  induction fs with
  | nil => intro pd store h; exact Or.inl h
  | cons f rest ih =>
    intro pd store h
    have h2 := ih (computeStep pd f).2 _ h
    rcases h2 with h2 | h2
    · rcases mem_updateFirst h2 with h3 | ⟨x, _, hfx⟩
      · exact Or.inl h3
      · exact Or.inr ⟨pd, f, x, hfx⟩
    · exact Or.inr h2

/-! ## The claims -/

/-- C10: a cascade only rewrites due fields of existing records in place:
the `_id`s, `salesmanId`s and `date`s of the store, position by position
(and hence its length and its set of `(salesmanId, date)` pairs, in
particular at-most-one-record-per-pair), are exactly those of the input
store. -/
theorem claim_C10 (store : Store) (sid D : String) :
    (recalculateFutureDues store sid D).map
        (fun r => (r.rid, r.salesmanId, r.date)) =
      store.map (fun r => (r.rid, r.salesmanId, r.date)) ∧
    (recalculateFutureDues store sid D).length = store.length := by
  constructor
  · unfold recalculateFutureDues
    exact cascadeLoop_map_eq (fun r => (r.rid, r.salesmanId, r.date))
      (fun d r => rfl) _ _ _
  · exact recalculateFutureDues_length store sid D

/-- C8: a non-numeric category `total` contributes `0` to `totalAmount`, a
non-numeric `deposit` is treated as `0` in `currDue` (so `currDue` equals
`totalDue`), and the cascade still processes every record (the store keeps
its length; no failure). -/
theorem claim_C8 :
    (∀ (c : Category) (cs : List Category), jsToNumber c.total = none →
        sumTotals (c :: cs) = sumTotals cs) ∧
    (∀ (pd : JVal) (sale : SaleRecord), jsToNumber sale.deposit = none →
        (computeStep pd sale).1.currDue = (computeStep pd sale).1.totalDue) ∧
    (∀ (store : Store) (sid D : String),
        (recalculateFutureDues store sid D).length = store.length) := by
  refine ⟨?_, ?_, fun store sid D => recalculateFutureDues_length store sid D⟩
  · intro c cs h
    simp [sumTotals, numOr0, h]
  · intro pd sale h
    simp [computeStep, numOr0, h]

theorem claim_C8_witness :
    (jsToNumber (Category.mk "x" (JVal.str "abc")).total = none ∧
      sumTotals [Category.mk "x" (JVal.str "abc")] = sumTotals []) ∧
    (jsToNumber ({ blankRec with deposit := JVal.undef } : SaleRecord).deposit
        = none ∧
      (computeStep (JVal.num 0) { blankRec with deposit := JVal.undef }).1.currDue =
        (computeStep (JVal.num 0) { blankRec with deposit := JVal.undef }).1.totalDue) :=
  ⟨⟨by decide, claim_C8.1 _ [] (by decide)⟩,
   ⟨by decide, claim_C8.2.1 (JVal.num 0) _ (by decide)⟩⟩

/-- C6: the spec's arithmetic example: a cascade step on
`categories = [{total: 120.555}, {total: 30}]`, `deposit = 50` with running
`prevDue = 10` persists `totalAmount = 150.56`, `totalDue = 160.56`,
`currDue = 110.56`. -/
theorem claim_C6 :
    (computeStep (JVal.num 10) exArith).1.totalAmount = 150.56 ∧
    (computeStep (JVal.num 10) exArith).1.totalDue = 160.56 ∧
    (computeStep (JVal.num 10) exArith).1.currDue = 110.56 := by
  refine ⟨?_, ?_, ?_⟩ <;>
    norm_num [computeStep, exArith, blankRec, sumTotals, numOr0, jsToNumber,
      round2]

theorem coalesce_of_ne {v b : JVal} (h1 : v ≠ JVal.null)
    (h2 : v ≠ JVal.undef) : coalesce v b = v := by
  cases v with
  | num q => rfl
  | str s => rfl
  | null => exact absurd rfl h1
  | undef => exact absurd rfl h2

theorem coalesce_null_or_undef {v b : JVal}
    (h : v = JVal.null ∨ v = JVal.undef) : coalesce v b = b := by
  rcases h with h | h <;> rw [h] <;> rfl

/-- C9: the seed's legacy fallback (`currDue ?? currentDue ?? due ?? 0`)
falls through only on `null`/`undefined`: any other stored `currDue` —
including `0` and the empty string — is the seed itself; by contrast the
read endpoint's repair also triggers on a stored `0` or `""`. -/
theorem claim_C9 :
    (∀ (store : Store) (sid D : String) (lastDay : SaleRecord),
        findRec store sid D = some lastDay →
        lastDay.currDue ≠ JVal.null → lastDay.currDue ≠ JVal.undef →
        seedPrevDue store sid D = lastDay.currDue) ∧
    (∀ (store : Store) (sid D : String) (lastDay : SaleRecord),
        findRec store sid D = some lastDay →
        lastDay.currDue = JVal.null ∨ lastDay.currDue = JVal.undef →
        seedPrevDue store sid D =
          coalesce lastDay.currentDue (coalesce lastDay.due (JVal.num 0))) ∧
    needsRepair (JVal.num 0) = true ∧ needsRepair (JVal.str "") = true := by
  refine ⟨?_, ?_, by decide, by decide⟩
  · intro store sid D lastDay hfind h1 h2
    unfold seedPrevDue
    rw [hfind]
    show coalesce lastDay.currDue (coalesce lastDay.currentDue
      (coalesce lastDay.due (JVal.num 0))) = lastDay.currDue
    exact coalesce_of_ne h1 h2
  · intro store sid D lastDay hfind h
    unfold seedPrevDue
    rw [hfind]
    show coalesce lastDay.currDue (coalesce lastDay.currentDue
      (coalesce lastDay.due (JVal.num 0))) =
        coalesce lastDay.currentDue (coalesce lastDay.due (JVal.num 0))
    exact coalesce_null_or_undef h

theorem claim_C9_witness :
    (findRec [exA] "s" "2024-01-01" = some exA ∧
      exA.currDue ≠ JVal.null ∧ exA.currDue ≠ JVal.undef ∧
      seedPrevDue [exA] "s" "2024-01-01" = exA.currDue) ∧
    (findRec [exC] "s" "2024-01-03" = some exC ∧
      exC.currDue = JVal.undef ∧
      seedPrevDue [exC] "s" "2024-01-03" =
        coalesce exC.currentDue (coalesce exC.due (JVal.num 0))) :=
  ⟨⟨by decide, by decide, by decide,
    claim_C9.1 [exA] "s" "2024-01-01" exA (by decide) (by decide) (by decide)⟩,
   ⟨by decide, by decide,
    claim_C9.2.1 [exC] "s" "2024-01-03" exC (by decide) (Or.inr (by decide))⟩⟩

/-- C2 (amended): of the four fields persisted by a cascade step, the three
computed ones — `totalAmount`, `totalDue`, `currDue` — are rounded to 2
decimal places at the point of storage, but `prevDue` is stored as the raw
(unrounded) incoming running value; every record of the post-cascade store
is either untouched or has exactly this shape. -/
theorem claim_C2 (store : Store) (sid D : String) (r : SaleRecord)
    (hr : r ∈ recalculateFutureDues store sid D) :
    r ∈ store ∨
      ∃ p t u c, r.prevDue = JVal.num p ∧
        r.totalAmount = JVal.num (round2 t) ∧
        r.totalDue = JVal.num (round2 u) ∧
        r.currDue = JVal.num (round2 c) := by
  unfold recalculateFutureDues at hr
  rcases mem_cascadeLoop _ _ _ hr with h | ⟨pd2, sale, x, hx⟩
  · exact Or.inl h
  · refine Or.inr ⟨(computeStep pd2 sale).1.prevDue,
      sumTotals (sale.categories.getD []),
      sumTotals (sale.categories.getD []) + numOr0 pd2,
      sumTotals (sale.categories.getD []) + numOr0 pd2 - numOr0 sale.deposit,
      ?_, ?_, ?_, ?_⟩ <;> rw [hx] <;> rfl

/-- C2 fails as stated: in the three-day store `exStore`, the cascade
anchored at D1 = 2024-01-01 persists `prevDue = 0.125` on the D3 record —
the raw carry, not a 2-decimal-rounded value (`round2 0.125 = 0.13`). -/
theorem claim_C2_counterexample :
    (lookupRid (recalculateFutureDues exStore "s" "2024-01-01") 3).map
        SaleRecord.prevDue = some (JVal.num 0.125) ∧
    round2 0.125 = 0.13 ∧ (0.125 : ℚ) ≠ 0.13 := by
  refine ⟨?_, by norm_num [round2], by norm_num⟩
  norm_num [lookupRid, recalculateFutureDues, exStore, exA, exB, exC,
    blankRec, futureSales, seedPrevDue, findRec, sortByDate, insertByDate,
    dateLe, dateLt, listLt, cascadeLoop, computeStep, updateFirst, setDue,
    sumTotals, numOr0, jsToNumber, coalesce, round2, oneEighth_eq]

theorem claim_C2_witness :
    exA ∈ recalculateFutureDues [exA] "s" "2024-01-01" ∧
      (exA ∈ [exA] ∨
        ∃ p t u c, exA.prevDue = JVal.num p ∧
          exA.totalAmount = JVal.num (round2 t) ∧
          exA.totalDue = JVal.num (round2 u) ∧
          exA.currDue = JVal.num (round2 c)) :=
  ⟨by decide, claim_C2 [exA] "s" "2024-01-01" exA (by decide)⟩

/-- C7: a cascade for salesman `sid` anchored at `D` preserves, at every
position of the store, the fields `rid`, `salesmanId`, `date`,
`categories`, `deposit`, `currentDue` and `due` (only the four due fields
are ever written), and leaves any record that is not a record of `sid`
dated strictly after `D` entirely unchanged. -/
theorem claim_C7 (store : Store) (sid D : String)
    (h : (store.map SaleRecord.rid).Nodup) (i : Fin store.length) :
    ((recalculateFutureDues store sid D).get
        ⟨i.1, by rw [recalculateFutureDues_length]; exact i.2⟩).rid =
          (store.get i).rid ∧
    ((recalculateFutureDues store sid D).get
        ⟨i.1, by rw [recalculateFutureDues_length]; exact i.2⟩).salesmanId =
          (store.get i).salesmanId ∧
    ((recalculateFutureDues store sid D).get
        ⟨i.1, by rw [recalculateFutureDues_length]; exact i.2⟩).date =
          (store.get i).date ∧
    ((recalculateFutureDues store sid D).get
        ⟨i.1, by rw [recalculateFutureDues_length]; exact i.2⟩).categories =
          (store.get i).categories ∧
    ((recalculateFutureDues store sid D).get
        ⟨i.1, by rw [recalculateFutureDues_length]; exact i.2⟩).deposit =
          (store.get i).deposit ∧
    ((recalculateFutureDues store sid D).get
        ⟨i.1, by rw [recalculateFutureDues_length]; exact i.2⟩).currentDue =
          (store.get i).currentDue ∧
    ((recalculateFutureDues store sid D).get
        ⟨i.1, by rw [recalculateFutureDues_length]; exact i.2⟩).due =
          (store.get i).due ∧
    (¬((store.get i).salesmanId = sid ∧ dateLt D (store.get i).date = true) →
      (recalculateFutureDues store sid D).get
        ⟨i.1, by rw [recalculateFutureDues_length]; exact i.2⟩ =
          store.get i) := by
  have hget : ∀ hlen, (recalculateFutureDues store sid D).get ⟨i.1, hlen⟩ =
      applyAssign (walkAssign (seedPrevDue store sid D)
        (futureSales store sid D)) (store.get i) := by
    intro hlen
    rw [List.get_eq_getElem]
    simp only [recalc_eq_map h, List.getElem_map]
    rw [List.get_eq_getElem]
  refine ⟨?_, ?_, ?_, ?_, ?_, ?_, ?_, ?_⟩
  · rw [hget]; simp
  · rw [hget]; simp
  · rw [hget]; simp
  · rw [hget]; simp
  · rw [hget]; simp
  · rw [hget]
    unfold applyAssign
    split <;> rfl
  · rw [hget]
    unfold applyAssign
    split <;> rfl
  · intro hnot
    rw [hget]
    apply applyAssign_of_not_mem
    rw [walkAssign_fst]
    intro hmem
    rcases List.mem_map.mp hmem with ⟨f, hf, hfr⟩
    rcases mem_futureSales.mp hf with ⟨hfs, hp⟩
    have hmm : store.get i ∈ store := List.get_mem store i.1 i.2
    have heq : f = store.get i := List.inj_on_of_nodup_map h hfs hmm hfr
    rcases (Bool.and_eq_true _ _).mp hp with ⟨hp1, hp2⟩
    refine hnot ⟨?_, ?_⟩
    · rw [← heq]; exact beq_iff_eq.mp hp1
    · rw [← heq]; exact hp2

theorem claim_C7_witness :
    (exStore.map SaleRecord.rid).Nodup ∧
      (¬((exStore.get ⟨0, by decide⟩).salesmanId = "s" ∧
          dateLt "2024-01-02" (exStore.get ⟨0, by decide⟩).date = true) →
        (recalculateFutureDues exStore "s" "2024-01-02").get
            ⟨(0 : Nat), by rw [recalculateFutureDues_length]; decide⟩ =
          exStore.get ⟨0, by decide⟩) :=
  ⟨by decide,
   (claim_C7 exStore "s" "2024-01-02" (by decide) ⟨0, by decide⟩).2.2.2.2.2.2.2⟩

/-! ### Looking up a cascade-set record in the rewritten store -/

theorem find?_rid_self {store : Store} {b : SaleRecord}
    (h : (store.map SaleRecord.rid).Nodup) (hb : b ∈ store) :
    store.find? (fun r => r.rid == b.rid) = some b := by
  have hsome : (store.find? (fun r => r.rid == b.rid)).isSome = true :=
    List.find?_isSome.mpr ⟨b, hb, by simp⟩
  rcases Option.isSome_iff_exists.mp hsome with ⟨y, hy⟩
  have hyb : y.rid = b.rid := by
    have hp := List.find?_some hy
    simpa using hp
  have hym : y ∈ store := List.mem_of_find?_eq_some hy
  rw [hy, List.inj_on_of_nodup_map h hym hb hyb]

theorem lookupRid_map {A : List (Nat × DueFields)} {store : Store}
    {b : SaleRecord} (h : (store.map SaleRecord.rid).Nodup) (hb : b ∈ store) :
    lookupRid (store.map (applyAssign A)) b.rid = some (applyAssign A b) := by
  unfold lookupRid
  rw [List.find?_map]
  have hp : ((fun r => r.rid == b.rid) ∘ applyAssign A) =
      (fun r => r.rid == b.rid) := by
    funext r
    simp [Function.comp]
  rw [hp, find?_rid_self h hb]
  rfl

theorem numOr0_num (q : ℚ) : numOr0 (JVal.num q) = q := rfl

/-- C5 (amended): with no record on the anchor date, the seed is the most
recent earlier record's `currDue ?? 0` — only `currDue`, NOT the legacy
`currentDue`/`due` fallback chain (that chain applies only to an
anchor-date record) — and `0` when no earlier record exists; the first
cascade-set record's stored `prevDue` is the seed after `Number(...) || 0`
coercion, in particular `0` in the no-earlier-record case. -/
theorem claim_C5 (store : Store) (sid D : String)
    (h : (store.map SaleRecord.rid).Nodup)
    (hn : findRec store sid D = none) :
    (∀ e, lastBefore store sid D = some e →
        seedPrevDue store sid D = coalesce e.currDue (JVal.num 0)) ∧
    (lastBefore store sid D = none → seedPrevDue store sid D = JVal.num 0) ∧
    (∀ b rest, futureSales store sid D = b :: rest →
        (lookupRid (recalculateFutureDues store sid D) b.rid).map
            SaleRecord.prevDue =
          some (JVal.num (numOr0 (seedPrevDue store sid D)))) := by
  refine ⟨?_, ?_, ?_⟩
  · intro e he
    unfold seedPrevDue
    rw [hn, he]
  · intro he
    unfold seedPrevDue
    rw [hn, he]
  · intro b rest hf
    have hbmem : b ∈ store := by
      have : b ∈ futureSales store sid D := by
        rw [hf]; exact List.mem_cons_self b rest
      exact (mem_futureSales.mp this).1
    rw [recalc_eq_map h, lookupRid_map h hbmem, hf]
    show some ((applyAssign ((b.rid, (computeStep (seedPrevDue store sid D) b).1) ::
      walkAssign (computeStep (seedPrevDue store sid D) b).2 rest) b).prevDue) = _
    rw [applyAssign_cons_self rfl]
    rfl

theorem claim_C5_counterexample :
    coalesce exLegacy.currDue (coalesce exLegacy.currentDue
      (coalesce exLegacy.due (JVal.num 0))) = JVal.num 75 ∧
    findRec exStoreLegacy "s" "2024-01-02" = none ∧
    lastBefore exStoreLegacy "s" "2024-01-02" = some exLegacy ∧
    seedPrevDue exStoreLegacy "s" "2024-01-02" = JVal.num 0 ∧
    (lookupRid (recalculateFutureDues exStoreLegacy "s" "2024-01-02") 2).map
        SaleRecord.prevDue = some (JVal.num 0) ∧
    JVal.num 0 ≠ JVal.num 75 := by
  refine ⟨by decide, by decide, by decide, by decide, ?_, by decide⟩
  have h1 : futureSales exStoreLegacy "s" "2024-01-02" = [exAfterGap] := by
    decide
  have h2 : seedPrevDue exStoreLegacy "s" "2024-01-02" = JVal.num 0 := by
    decide
  unfold recalculateFutureDues
  rw [h1, h2]
  norm_num [lookupRid, exStoreLegacy, exLegacy, exAfterGap, blankRec,
    cascadeLoop, computeStep, updateFirst, setDue, sumTotals, numOr0,
    jsToNumber, round2]

theorem claim_C5_witness :
    (exStoreLegacy.map SaleRecord.rid).Nodup ∧
    findRec exStoreLegacy "s" "2024-01-02" = none ∧
    lastBefore exStoreLegacy "s" "2024-01-02" = some exLegacy ∧
    seedPrevDue exStoreLegacy "s" "2024-01-02" =
      coalesce exLegacy.currDue (JVal.num 0) ∧
    futureSales exStoreLegacy "s" "2024-01-02" = [exAfterGap] ∧
    (lookupRid (recalculateFutureDues exStoreLegacy "s" "2024-01-02")
        exAfterGap.rid).map SaleRecord.prevDue =
      some (JVal.num (numOr0 (seedPrevDue exStoreLegacy "s" "2024-01-02"))) :=
  ⟨by decide, by decide, by decide,
   (claim_C5 exStoreLegacy "s" "2024-01-02" (by decide) (by decide)).1
     exLegacy (by decide),
   by decide,
   (claim_C5 exStoreLegacy "s" "2024-01-02" (by decide) (by decide)).2.2
     exAfterGap [] (by decide)⟩

/-- C1 (amended): after a cascade anchored at D1 over a salesman whose
cascade set is exactly the records at D2 < D3, the first chain link is
exact — the D2 record's stored `prevDue` equals the numeric stored
`currDue` of the D1 anchor record — but the second link holds only up to
rounding: the D3 record's stored `prevDue` is the UNROUNDED `currDue`
computed at D2, while the D2 record stores its rounded value; the two
coincide exactly when rounding that value is a no-op. -/
theorem claim_C1 (store : Store) (sid D1 : String) (a b c : SaleRecord)
    (h : (store.map SaleRecord.rid).Nodup)
    (ha : findRec store sid D1 = some a) (qa : ℚ)
    (hq : a.currDue = JVal.num qa)
    (hf : futureSales store sid D1 = [b, c]) :
    (lookupRid (recalculateFutureDues store sid D1) b.rid).map
        SaleRecord.prevDue = some a.currDue ∧
    ∃ u : ℚ,
      (lookupRid (recalculateFutureDues store sid D1) c.rid).map
          SaleRecord.prevDue = some (JVal.num u) ∧
      (lookupRid (recalculateFutureDues store sid D1) b.rid).map
          SaleRecord.currDue = some (JVal.num (round2 u)) ∧
      (round2 u = u →
        (lookupRid (recalculateFutureDues store sid D1) c.rid).map
            SaleRecord.prevDue =
          (lookupRid (recalculateFutureDues store sid D1) b.rid).map
            SaleRecord.currDue) := by
  have hseed : seedPrevDue store sid D1 = JVal.num qa := by
    unfold seedPrevDue
    rw [ha]
    show coalesce a.currDue (coalesce a.currentDue
      (coalesce a.due (JVal.num 0))) = JVal.num qa
    rw [hq]
    rfl
  have hbmem : b ∈ store := by
    have hm : b ∈ futureSales store sid D1 := by
      rw [hf]; exact List.mem_cons_self b [c]
    exact (mem_futureSales.mp hm).1
  have hcmem : c ∈ store := by
    have hm : c ∈ futureSales store sid D1 := by
      rw [hf]; simp
    exact (mem_futureSales.mp hm).1
  have hne : c.rid ≠ b.rid := by
    have hnd := futureSales_nodup sid D1 h
    rw [hf] at hnd
    have : b.rid ∉ [c.rid] := (List.nodup_cons.mp (by simpa using hnd)).1
    intro heq
    exact this (by rw [← heq]; exact List.mem_singleton_self c.rid)
  have hmap : recalculateFutureDues store sid D1 =
      store.map (applyAssign (walkAssign (seedPrevDue store sid D1)
        (futureSales store sid D1))) := recalc_eq_map h
  rw [hf, hseed] at hmap
  have hlb : lookupRid (recalculateFutureDues store sid D1) b.rid =
      some (setDue (computeStep (JVal.num qa) b).1 b) := by
    rw [hmap, lookupRid_map h hbmem]
    show some (applyAssign ((b.rid, (computeStep (JVal.num qa) b).1) ::
      walkAssign (computeStep (JVal.num qa) b).2 [c]) b) = _
    rw [applyAssign_cons_self rfl]
  have hlc : lookupRid (recalculateFutureDues store sid D1) c.rid =
      some (setDue (computeStep ((computeStep (JVal.num qa) b).2) c).1 c) := by
    rw [hmap, lookupRid_map h hcmem]
    show some (applyAssign ((b.rid, (computeStep (JVal.num qa) b).1) ::
      walkAssign (computeStep (JVal.num qa) b).2 [c]) c) = _
    rw [applyAssign_cons_ne hne]
    show some (applyAssign ((c.rid, (computeStep ((computeStep (JVal.num qa) b).2) c).1) :: []) c) = _
    rw [applyAssign_cons_self rfl]
  refine ⟨?_, sumTotals (b.categories.getD []) + qa - numOr0 b.deposit,
    ?_, ?_, ?_⟩
  · rw [hlb, hq]
    rfl
  · rw [hlc]
    rfl
  · rw [hlb]
    rfl
  · intro hru
    rw [hlb, hlc]
    show some (JVal.num (numOr0 ((computeStep (JVal.num qa) b).2))) =
      some (JVal.num ((computeStep (JVal.num qa) b).1.currDue))
    have h1 : numOr0 ((computeStep (JVal.num qa) b).2) =
        sumTotals (b.categories.getD []) + qa - numOr0 b.deposit := rfl
    have h2 : (computeStep (JVal.num qa) b).1.currDue =
        round2 (sumTotals (b.categories.getD []) + qa - numOr0 b.deposit) :=
      rfl
    rw [h1, h2, hru]

/-- C1 fails as stated: in the three-day store `exStore` (records on
2024-01-01 < 2024-01-02 < 2024-01-03, consecutive in storage), after the
cascade anchored at D1 = 2024-01-01 the D3 record's stored `prevDue` is
0.125 while the D2 record's stored `currDue` is the rounded 0.13 — the
second chain link does not hold. -/
theorem claim_C1_counterexample :
    (lookupRid (recalculateFutureDues exStore "s" "2024-01-01") 2).map
        SaleRecord.currDue = some (JVal.num 0.13) ∧
    (lookupRid (recalculateFutureDues exStore "s" "2024-01-01") 3).map
        SaleRecord.prevDue = some (JVal.num 0.125) ∧
    ¬((lookupRid (recalculateFutureDues exStore "s" "2024-01-01") 3).map
          SaleRecord.prevDue =
        (lookupRid (recalculateFutureDues exStore "s" "2024-01-01") 2).map
          SaleRecord.currDue) := by
  have h1 : futureSales exStore "s" "2024-01-01" = [exB, exC] := by decide
  have h2 : seedPrevDue exStore "s" "2024-01-01" = JVal.num 0 := by decide
  have hb : (lookupRid (recalculateFutureDues exStore "s" "2024-01-01") 2).map
      SaleRecord.currDue = some (JVal.num 0.13) := by
    unfold recalculateFutureDues
    rw [h1, h2]
    norm_num [lookupRid, exStore, exA, exB, exC, blankRec, cascadeLoop,
      computeStep, updateFirst, setDue, sumTotals, numOr0, jsToNumber,
      round2, oneEighth_eq]
  have hc : (lookupRid (recalculateFutureDues exStore "s" "2024-01-01") 3).map
      SaleRecord.prevDue = some (JVal.num 0.125) := by
    unfold recalculateFutureDues
    rw [h1, h2]
    norm_num [lookupRid, exStore, exA, exB, exC, blankRec, cascadeLoop,
      computeStep, updateFirst, setDue, sumTotals, numOr0, jsToNumber,
      round2, oneEighth_eq]
  refine ⟨hb, hc, ?_⟩
  rw [hb, hc]
  intro hcontra
  have : (0.125 : ℚ) = 0.13 := by
    have h3 := Option.some.inj hcontra
    exact JVal.num.inj h3
  norm_num at this

theorem claim_C1_witness :
    (exStore.map SaleRecord.rid).Nodup ∧
    findRec exStore "s" "2024-01-01" = some exA ∧
    exA.currDue = JVal.num 0 ∧
    futureSales exStore "s" "2024-01-01" = [exB, exC] ∧
    (lookupRid (recalculateFutureDues exStore "s" "2024-01-01") exB.rid).map
        SaleRecord.prevDue = some exA.currDue :=
  ⟨by decide, by decide, by decide, by decide,
   (claim_C1 exStore "s" "2024-01-01" exA exB exC (by decide) (by decide) 0
     (by decide) (by decide)).1⟩

/-- C4 (amended): the read-time repair consults only the CALENDAR-PREVIOUS
day, not the nearest earlier record: for a salesman with a record on the
requested date whose stored `prevDue` is missing, null, `""` or numerically
0, the endpoint returns that record with `prevDue` replaced by the
previous-day record's `currDue ?? currentDue ?? due ?? 0`, or by `0` when
the salesman has no record on the calendar-previous day; the nearest-earlier
lookup (`getLastKnownDue`) is reached only by salesmen with no record on the
requested date at all. -/
theorem claim_C4 (store : Store) (salesmenIds : List String)
    (date smId : String) (t : SaleRecord)
    (ht : findLastRec (fun r => r.date == date && r.salesmanId == smId)
        store = some t)
    (hr : needsRepair t.prevDue = true) :
    readDailySale salesmenIds store date =
      salesmenIds.map (entryFor store date) ∧
    entryFor store date smId =
      { t with prevDue :=
          (prevDueLookup store (prevDateOf date) smId).getD (JVal.num 0) } ∧
    (findLastRec (fun r => r.date == prevDateOf date && r.salesmanId == smId)
        store = none →
      (entryFor store date smId).prevDue = JVal.num 0) := by
  have hmain : entryFor store date smId =
      { t with prevDue :=
          (prevDueLookup store (prevDateOf date) smId).getD (JVal.num 0) } := by
    unfold entryFor
    rw [ht]
    show (if needsRepair t.prevDue = true then _ else t) = _
    rw [hr]
    simp
  refine ⟨rfl, hmain, ?_⟩
  intro hn
  rw [hmain]
  show (prevDueLookup store (prevDateOf date) smId).getD (JVal.num 0) =
    JVal.num 0
  unfold prevDueLookup
  rw [hn]
  rfl

/-- C4 fails as stated: salesman `"s"` has a stored record on the read date
2024-01-05 with `prevDue = 0` (repair triggers) and their nearest earlier
record (2024-01-01) carries `currDue = 42`, but the endpoint returns the
record with `prevDue = 0`, because it only consults the calendar-previous
day 2024-01-04, where no record exists — not the nearest earlier record. -/
theorem claim_C4_counterexample :
    needsRepair exToday.prevDue = true ∧
    getLastKnownDue exStoreRead "s" "2024-01-05" = JVal.num 42 ∧
    prevDateOf "2024-01-05" = "2024-01-04" ∧
    readDailySale ["s"] exStoreRead "2024-01-05" =
      [{ exToday with prevDue := JVal.num 0 }] ∧
    JVal.num 0 ≠ JVal.num 42 := by
  refine ⟨by decide, by decide, by decide, by decide, by decide⟩

theorem claim_C4_witness :
    findLastRec (fun r => r.date == "2024-01-05" && r.salesmanId == "s")
        exStoreRead = some exToday ∧
    needsRepair exToday.prevDue = true ∧
    entryFor exStoreRead "2024-01-05" "s" =
      { exToday with prevDue :=
          ((prevDueLookup exStoreRead (prevDateOf "2024-01-05") "s").getD
            (JVal.num 0)) } :=
  ⟨by decide, by decide,
   (claim_C4 exStoreRead ["s"] "2024-01-05" "s" exToday (by decide)
     (by decide)).2.1⟩

/-! ### The cascade commutes with due-field rewrites (for idempotence) -/

theorem filter_map_of_inv (g : SaleRecord → SaleRecord)
    (p : SaleRecord → Bool) (hp : ∀ x, p (g x) = p x) (l : List SaleRecord) :
    (l.map g).filter p = (l.filter p).map g := by
  rw [List.filter_map]
  congr 1
  exact List.filter_congr (fun x _ => hp x)

theorem insertByDate_map (g : SaleRecord → SaleRecord)
    (hg : ∀ r, (g r).date = r.date) (r : SaleRecord) :
    ∀ l : List SaleRecord,
      insertByDate (g r) (l.map g) = (insertByDate r l).map g := by
  intro l
  induction l with
  | nil => rfl
  | cons x xs ih =>
    show insertByDate (g r) (g x :: xs.map g) = _
    unfold insertByDate
    by_cases hc : dateLe x.date r.date = true
    · rw [if_pos (by rw [hg x, hg r]; exact hc), if_pos hc, List.map_cons, ih]
    · rw [if_neg (by rw [hg x, hg r]; exact hc), if_neg hc, List.map_cons,
        List.map_cons]

theorem sortByDate_map (g : SaleRecord → SaleRecord)
    (hg : ∀ r, (g r).date = r.date) :
    ∀ l : List SaleRecord, sortByDate (l.map g) = (sortByDate l).map g := by
  intro l
  induction l with
  | nil => rfl
  | cons x xs ih =>
    show insertByDate (g x) (sortByDate (xs.map g)) = _
    rw [ih, insertByDate_map g hg]
    rfl

theorem computeStep_applyAssign (pd : JVal) (A : List (Nat × DueFields))
    (x : SaleRecord) : computeStep pd (applyAssign A x) = computeStep pd x := by
  unfold computeStep
  rw [applyAssign_categories, applyAssign_deposit]

theorem walkAssign_map (A : List (Nat × DueFields)) :
    ∀ (fs : List SaleRecord) (pd : JVal),
      walkAssign pd (fs.map (applyAssign A)) = walkAssign pd fs := by
  intro fs
  induction fs with
  | nil => intro pd; rfl
  | cons f rest ih =>
    intro pd
    show walkAssign pd (applyAssign A f :: rest.map (applyAssign A)) = _
    unfold walkAssign
    rw [computeStep_applyAssign, applyAssign_rid, ih]

theorem applyAssign_applyAssign (A : List (Nat × DueFields))
    (r : SaleRecord) :
    applyAssign A (applyAssign A r) = applyAssign A r := by
  cases hf : A.find? (fun p => p.1 == r.rid) with
  | some p =>
    have h1 : applyAssign A r = setDue p.2 r := by
      unfold applyAssign; rw [hf]
    rw [h1]
    show applyAssign A (setDue p.2 r) = setDue p.2 r
    unfold applyAssign
    simp only [setDue_rid]
    rw [hf]
    exact setDue_setDue p.2 r
  | none =>
    have h1 : applyAssign A r = r := by
      unfold applyAssign; rw [hf]
    rw [h1]
    exact h1

theorem map_applyAssign_rid (A : List (Nat × DueFields)) (store : Store) :
    (store.map (applyAssign A)).map SaleRecord.rid =
      store.map SaleRecord.rid := by
  rw [List.map_map]
  exact List.map_congr_left (fun x _ => applyAssign_rid A x)

theorem findRec_some {store : Store} {sid D : String} {a : SaleRecord}
    (h : findRec store sid D = some a) :
    a ∈ store ∧ a.salesmanId = sid ∧ a.date = D := by
  unfold findRec at h
  have h1 := List.mem_of_find?_eq_some h
  have h2 := List.find?_some h
  simp only [Bool.and_eq_true, beq_iff_eq] at h2
  exact ⟨h1, h2.1, h2.2⟩

theorem mem_lastBefore {store : Store} {sid D : String} {lb : SaleRecord}
    (h : lastBefore store sid D = some lb) :
    lb ∈ store ∧ lb.salesmanId = sid ∧ dateLt lb.date D = true := by
  unfold lastBefore at h
  have hmem := List.mem_of_mem_getLast? h
  rw [(sortByDate_perm _).mem_iff, List.mem_filter] at hmem
  rcases hmem with ⟨hm, hp⟩
  rcases (Bool.and_eq_true _ _).mp hp with ⟨hp1, hp2⟩
  exact ⟨hm, beq_iff_eq.mp hp1, hp2⟩

theorem seedPrevDue_map {store : Store} {sid D : String}
    {A : List (Nat × DueFields)}
    (h : (store.map SaleRecord.rid).Nodup)
    (hAprop : ∀ i ∈ A.map Prod.fst,
      ∃ f ∈ store, f.rid = i ∧ dateLt D f.date = true) :
    seedPrevDue (store.map (applyAssign A)) sid D =
      seedPrevDue store sid D := by
  have hfr : findRec (store.map (applyAssign A)) sid D =
      (findRec store sid D).map (applyAssign A) := by
    unfold findRec
    rw [List.find?_map]
    have hpe : ((fun r => r.salesmanId == sid && r.date == D) ∘
        applyAssign A) = (fun r => r.salesmanId == sid && r.date == D) := by
      funext r
      simp [Function.comp]
    rw [hpe]
  unfold seedPrevDue
  rw [hfr]
  cases hfind : findRec store sid D with
  | some a =>
    rcases findRec_some hfind with ⟨hamem, hasid, hadate⟩
    have hnot : a.rid ∉ A.map Prod.fst := by
      intro hmem
      rcases hAprop _ hmem with ⟨f, hfmem, hfrid, hflt⟩
      have hfa : f = a := List.inj_on_of_nodup_map h hfmem hamem hfrid
      rw [hfa, hadate] at hflt
      rw [dateLt_irrefl D] at hflt
      exact absurd hflt (by simp)
    simp only [Option.map_some']
    rw [applyAssign_of_not_mem hnot]
  | none =>
    simp only [Option.map_none']
    have hlb : lastBefore (store.map (applyAssign A)) sid D =
        (lastBefore store sid D).map (applyAssign A) := by
      unfold lastBefore
      rw [filter_map_of_inv (applyAssign A) _ (fun x => by simp) store,
        sortByDate_map (applyAssign A) (fun r => applyAssign_date A r),
        List.getLast?_map]
    rw [hlb]
    cases hlast : lastBefore store sid D with
    | some lb =>
      simp only [Option.map_some']
      rcases mem_lastBefore hlast with ⟨hlmem, _, hldate⟩
      have hnot : lb.rid ∉ A.map Prod.fst := by
        intro hmem
        rcases hAprop _ hmem with ⟨f, hfmem, hfrid, hflt⟩
        have hfa : f = lb := List.inj_on_of_nodup_map h hfmem hlmem hfrid
        rw [hfa] at hflt
        have hasym := dateLt_asymm hflt
        rw [hldate] at hasym
        exact absurd hasym (by simp)
      rw [applyAssign_of_not_mem hnot]
    | none => rfl

/-- C3: the cascade is idempotent: with `_id`s unique (as Mongo guarantees),
running `recalculateFutureDues` twice in a row with the same salesman and
anchor date, with no intervening writes, leaves the store exactly as after
the first run. -/
theorem claim_C3 (store : Store) (sid D : String)
    (h : (store.map SaleRecord.rid).Nodup) :
    recalculateFutureDues (recalculateFutureDues store sid D) sid D =
      recalculateFutureDues store sid D := by
  set A := walkAssign (seedPrevDue store sid D) (futureSales store sid D)
    with hA
  have h1 : recalculateFutureDues store sid D =
      store.map (applyAssign A) := recalc_eq_map h
  have hAprop : ∀ i ∈ A.map Prod.fst,
      ∃ f ∈ store, f.rid = i ∧ dateLt D f.date = true := by
    rw [hA, walkAssign_fst]
    intro i hi
    rcases List.mem_map.mp hi with ⟨f, hf, hfi⟩
    rcases mem_futureSales.mp hf with ⟨hfs, hp⟩
    exact ⟨f, hfs, hfi, ((Bool.and_eq_true _ _).mp hp).2⟩
  have h2 : ((store.map (applyAssign A)).map SaleRecord.rid).Nodup := by
    rw [map_applyAssign_rid]; exact h
  have h3 : futureSales (store.map (applyAssign A)) sid D =
      (futureSales store sid D).map (applyAssign A) := by
    unfold futureSales
    rw [filter_map_of_inv (applyAssign A) _ (fun x => by simp) store,
      sortByDate_map (applyAssign A) (fun r => applyAssign_date A r)]
  have h4 : seedPrevDue (store.map (applyAssign A)) sid D =
      seedPrevDue store sid D := seedPrevDue_map h hAprop
  rw [h1, recalc_eq_map h2, h3, h4, walkAssign_map, ← hA, List.map_map]
  exact List.map_congr_left (fun x _ => applyAssign_applyAssign A x)

theorem claim_C3_witness :
    (exStore.map SaleRecord.rid).Nodup ∧
    recalculateFutureDues (recalculateFutureDues exStore "s" "2024-01-01")
        "s" "2024-01-01" =
      recalculateFutureDues exStore "s" "2024-01-01" :=
  ⟨by decide, claim_C3 exStore "s" "2024-01-01" (by decide)⟩
